import Mathlib

/-!
Verification of the reservoir pump-scheduling model builder
(`scripts/ReservoirManagement.py`).

The Python script builds a constrained quadratic model (CQM) from three input
tables (pumps, exogenous per-hour data, reservoir parameters): binary
`pump{p}_time{t}` variables, real `volume_time{t}` variables, derived linear
expressions (inflow, outflow, power used), an objective, and five named
constraint families.

Shallow embedding choices:
- dimod symbolic variables are identified by their string label (that is how
  dimod aggregates terms); a linear expression is an ordered list of
  (label, coefficient) terms plus a constant, mirroring the way the script
  composes sums, products and differences of `dimod.Binary` / `dimod.Real`
  objects.  Two expressions denote the same dimod object exactly when they
  have the same per-label aggregate coefficients and the same constant, which
  is what `coeff` and `eval` capture.
- the module-level pandas tables become explicit arguments (lists of rows);
  pandas label lookup `table.col[key]` becomes `find?` on the row list.
- numeric values are modelled as exact rationals.
- Python's `f"...{n}..."` decimal formatting of a nonnegative integer is
  `natStr` below, defined with explicit fuel so that it evaluates by `decide`.
-/

/-- Little-endian decimal digits of `n`, with explicit fuel (structural
recursion on the fuel so the kernel can evaluate it). -/
def digitsRevAux : Nat → Nat → List Nat
  | 0, _ => []
  | fuel + 1, n => if n = 0 then [] else n % 10 :: digitsRevAux fuel (n / 10)

/-- Little-endian decimal digits of `n` (empty for 0). -/
def digitsRev (n : Nat) : List Nat := digitsRevAux n n

/-- The character for a single decimal digit. -/
def digitChar : Nat → Char
  | 0 => '0' | 1 => '1' | 2 => '2' | 3 => '3' | 4 => '4'
  | 5 => '5' | 6 => '6' | 7 => '7' | 8 => '8' | 9 => '9'
  | _ => '*'

/-- Decimal rendering of a natural number, as Python's `str`/f-string does. -/
def natStr (n : Nat) : String :=
  if n = 0 then "0" else ⟨((digitsRev n).reverse.map digitChar)⟩

/-- A linear expression: an ordered list of (variable label, coefficient)
terms plus a constant offset.  This is the shape the script builds with
dimod operators. -/
structure LinExpr where
  terms : List (String × ℚ)
  const : ℚ
deriving DecidableEq

/-- The expression consisting of a single variable with coefficient 1
(`dimod.Binary(label)` / `dimod.Real(label)`). -/
def varE (label : String) : LinExpr := ⟨[(label, 1)], 0⟩

/-- A constant expression. -/
def constE (c : ℚ) : LinExpr := ⟨[], c⟩

/-- The zero expression. -/
def exprZero : LinExpr := ⟨[], 0⟩

/-- Sum of two expressions. -/
def exprAdd (a b : LinExpr) : LinExpr := ⟨a.terms ++ b.terms, a.const + b.const⟩

/-- Negation of an expression. -/
def exprNeg (a : LinExpr) : LinExpr :=
  ⟨a.terms.map (fun tc => (tc.1, -tc.2)), -a.const⟩

/-- Difference of two expressions. -/
def exprSub (a b : LinExpr) : LinExpr := exprAdd a (exprNeg b)

/-- Scaling of an expression by a rational scalar. -/
def exprSmul (c : ℚ) (a : LinExpr) : LinExpr :=
  ⟨a.terms.map (fun tc => (tc.1, c * tc.2)), c * a.const⟩

/-- Sum of a list of expressions (`dimod.quicksum`). -/
def exprSum (l : List LinExpr) : LinExpr := l.foldr exprAdd exprZero

/-- Aggregate coefficient of a variable label in an expression; this is the
coefficient dimod stores for that variable. -/
def coeff (a : LinExpr) (v : String) : ℚ :=
  (a.terms.filter (fun tc => tc.1 = v)).foldr (fun tc s => tc.2 + s) 0

/-- Value of an expression under an assignment of rationals to labels. -/
def eval (σ : String → ℚ) (a : LinExpr) : ℚ :=
  a.terms.foldr (fun tc s => tc.2 * σ tc.1 + s) 0 + a.const

/-- One row of the pump table (`pumps.csv`). -/
structure Pump where
  id : Nat
  capacity : ℚ
  power_consumption : ℚ
deriving DecidableEq

/-- One row of the exogenous table (`exogenous.csv`). -/
structure ExogRow where
  time : Nat
  water_demand : ℚ
  power_price : ℚ
deriving DecidableEq

/-- The reservoir parameter row (`reservoir.csv`). -/
structure Reservoir where
  Vmin : ℚ
  Vmax : ℚ
  Vinit : ℚ
deriving DecidableEq

/-- `pumps.capacity[pump]`: capacity of the pump with the given id
(0 stands in for the pandas KeyError on an absent id). -/
def capacity (pumps : List Pump) (pump : Nat) : ℚ :=
  (((pumps.find? (fun p => p.id = pump)).map Pump.capacity).getD 0)

/-- `pumps.power_consumption[pump]`. -/
def power_consumption (pumps : List Pump) (pump : Nat) : ℚ :=
  (((pumps.find? (fun p => p.id = pump)).map Pump.power_consumption).getD 0)

/-- `timeslots = exogenous.time`. -/
def timeslots (exogenous : List ExogRow) : List Nat :=
  exogenous.map ExogRow.time

/-- `pumps.id`, the id column iterated over by the script's generators. -/
def pumpIds (pumps : List Pump) : List Nat :=
  pumps.map Pump.id

/-- `timeslots.min()` (0 stands in for the pandas result on an empty table,
which the script never hits). -/
def timeslotsMin (exogenous : List ExogRow) : Nat :=
  match timeslots exogenous with
  | [] => 0
  | t :: ts => ts.foldl min t

/-- `power_price(time) = exogenous.power_price[time]/1000`. -/
def power_price (exogenous : List ExogRow) (time : Nat) : ℚ :=
  (((exogenous.find? (fun r => r.time = time)).map ExogRow.power_price).getD 0)
    / 1000

/-- `water_demand(time) = exogenous.water_demand[time]`. -/
def water_demand (exogenous : List ExogRow) (time : Nat) : ℚ :=
  (((exogenous.find? (fun r => r.time = time)).map ExogRow.water_demand).getD 0)

/-- The label of the binary running variable for a (pump, time) pair,
`f"pump{pump}_time{time}"`. -/
def runLabel (pump time : Nat) : String :=
  "pump" ++ natStr pump ++ "_time" ++ natStr time

/-- The label of the continuous volume variable for a time,
`f"volume_time{time}"`. -/
def volLabel (time : Nat) : String :=
  "volume_time" ++ natStr time

/-- `is_running(pump, time) = dimod.Binary(f"pump{pump}_time{time}")`. -/
def is_running (pump time : Nat) : LinExpr :=
  varE (runLabel pump time)

/-- `reservoir_volume(time)`: the real variable `volume_time{time}` when
`time >= timeslots.min()`, else the constant `reservoir.Vinit`. -/
def reservoir_volume (exogenous : List ExogRow) (reservoir : Reservoir)
    (time : Nat) : LinExpr :=
  if timeslotsMin exogenous ≤ time then varE (volLabel time)
  else constE reservoir.Vinit

/-- `reservoir_inflow(time) = Sum(capacity(pump) * is_running(pump, time)
for pump in pumps.id)`. -/
def reservoir_inflow (pumps : List Pump) (time : Nat) : LinExpr :=
  exprSum ((pumpIds pumps).map
    (fun pump => exprSmul (capacity pumps pump) (is_running pump time)))

/-- `reservoir_outflow(time) = reservoir_volume(time-1) +
reservoir_inflow(time) - reservoir_volume(time)`. -/
def reservoir_outflow (pumps : List Pump) (exogenous : List ExogRow)
    (reservoir : Reservoir) (time : Nat) : LinExpr :=
  exprSub
    (exprAdd (reservoir_volume exogenous reservoir (time - 1))
      (reservoir_inflow pumps time))
    (reservoir_volume exogenous reservoir time)

/-- `power_used(time) = Sum(power_consumption(pump) * is_running(pump, time)
for pump in pumps.id)`. -/
def power_used (pumps : List Pump) (time : Nat) : LinExpr :=
  exprSum ((pumpIds pumps).map
    (fun pump => exprSmul (power_consumption pumps pump)
      (is_running pump time)))

/-- Comparison sense of a dimod constraint. -/
inductive Sense where
  | le
  | ge
  | eq
deriving DecidableEq

/-- A named constraint `lhs rel rhs` as added by `model.add_constraint`. -/
structure Constr where
  name : String
  lhs : LinExpr
  rel : Sense
  rhs : ℚ
deriving DecidableEq

/-- The objective set by `model.set_objective`:
`Sum(power_price(time) * power_used(time) for time in timeslots)`. -/
def buildObjective (pumps : List Pump) (exogenous : List ExogRow) : LinExpr :=
  exprSum ((timeslots exogenous).map
    (fun time => exprSmul (power_price exogenous time)
      (power_used pumps time)))

/-- `f"pump{pump}_on_at_least_1h_per_day"`. -/
def minUtilName (pump : Nat) : String :=
  "pump" ++ natStr pump ++ "_on_at_least_1h_per_day"

/-- `f"at_least_one_pump_in_reserve_at_time{time}"`. -/
def reserveName (time : Nat) : String :=
  "at_least_one_pump_in_reserve_at_time" ++ natStr time

/-- `f"volume_at_time{time}"` (the mass-balance constraint label). -/
def balanceName (time : Nat) : String :=
  "volume_at_time" ++ natStr time

/-- `f"within_capacity_at_time{time}"`. -/
def capacityName (time : Nat) : String :=
  "within_capacity_at_time" ++ natStr time

/-- `f"sufficient_reserve_at_time{time}"`. -/
def floorName (time : Nat) : String :=
  "sufficient_reserve_at_time" ++ natStr time

/-- The five `add_constraint` loops of the script, in program order. -/
def buildConstraints (pumps : List Pump) (exogenous : List ExogRow)
    (reservoir : Reservoir) : List Constr :=
  ((pumpIds pumps).map (fun pump =>
    ⟨minUtilName pump,
      exprSum ((timeslots exogenous).map (fun time => is_running pump time)),
      Sense.ge, 1⟩))
  ++ ((timeslots exogenous).map (fun time =>
    ⟨reserveName time,
      exprSum ((pumpIds pumps).map (fun pump => is_running pump time)),
      Sense.le, (pumps.length : ℚ) - 1⟩))
  ++ ((timeslots exogenous).map (fun time =>
    ⟨balanceName time,
      reservoir_outflow pumps exogenous reservoir time,
      Sense.eq, water_demand exogenous time⟩))
  ++ ((timeslots exogenous).map (fun time =>
    ⟨capacityName time,
      reservoir_volume exogenous reservoir time,
      Sense.le, reservoir.Vmax⟩))
  ++ ((timeslots exogenous).map (fun time =>
    ⟨floorName time,
      reservoir_volume exogenous reservoir time,
      Sense.ge, reservoir.Vmin⟩))

/-- The names of the model's constraints, in insertion order. -/
def constraintNames (pumps : List Pump) (exogenous : List ExogRow)
    (reservoir : Reservoir) : List String :=
  (buildConstraints pumps exogenous reservoir).map Constr.name

/-- An assignment satisfies one constraint. -/
def satisfies (σ : String → ℚ) (c : Constr) : Prop :=
  match c.rel with
  | Sense.le => eval σ c.lhs ≤ c.rhs
  | Sense.ge => c.rhs ≤ eval σ c.lhs
  | Sense.eq => eval σ c.lhs = c.rhs

/-- An assignment is feasible for the built model: it satisfies every
constraint. -/
def Feasible (pumps : List Pump) (exogenous : List ExogRow)
    (reservoir : Reservoir) (σ : String → ℚ) : Prop :=
  ∀ c ∈ buildConstraints pumps exogenous reservoir, satisfies σ c

/-- The pump table of the reference dataset (`pumps.csv`). -/
def refPumps : List Pump :=
  [⟨1, 75, 15⟩, ⟨2, 133, 37⟩, ⟨3, 157, 33⟩, ⟨4, 176, 33⟩,
   ⟨5, 59, 22⟩, ⟨6, 69, 33⟩, ⟨7, 120, 22⟩]

/-- The exogenous table of the reference dataset (`exogenous.csv`). -/
def refExog : List ExogRow :=
  [⟨1, 4462/100, 169⟩, ⟨2, 3127/100, 169⟩, ⟨3, 2622/100, 169⟩,
   ⟨4, 2751/100, 169⟩, ⟨5, 3150/100, 169⟩, ⟨6, 4618/100, 169⟩,
   ⟨7, 6947/100, 169⟩, ⟨8, 10036/100, 283⟩, ⟨9, 13185/100, 283⟩,
   ⟨10, 14851/100, 283⟩, ⟨11, 14989/100, 283⟩, ⟨12, 14221/100, 283⟩,
   ⟨13, 13209/100, 283⟩, ⟨14, 12929/100, 169⟩, ⟨15, 12406/100, 169⟩,
   ⟨16, 11468/100, 169⟩, ⟨17, 10933/100, 336⟩, ⟨18, 11576/100, 336⟩,
   ⟨19, 12695/100, 336⟩, ⟨20, 13148/100, 336⟩, ⟨21, 13886/100, 336⟩,
   ⟨22, 13191/100, 169⟩, ⟨23, 11153/100, 169⟩, ⟨24, 7043/100, 169⟩]

/-- The reservoir parameters of the reference dataset (`reservoir.csv`). -/
def refRes : Reservoir := ⟨1047/2, 1500, 550⟩

/-- The all-on assignment: every variable, in particular every running
variable, is set to 1. -/
def allOn : String → ℚ := fun _ => 1

/-! ### Decimal rendering: `natStr` is injective -/

/-- Value of a little-endian digit list. -/
def fromDigits : List Nat → Nat
  | [] => 0
  | d :: ds => d + 10 * fromDigits ds

theorem fromDigits_digitsRevAux :
    ∀ fuel n, n ≤ fuel → fromDigits (digitsRevAux fuel n) = n := by
  intro fuel
  induction fuel with
  | zero => intro n hn; interval_cases n; rfl
  | succ fuel ih =>
    intro n hn
    by_cases h0 : n = 0
    · subst h0; rfl
    · have hdiv : n / 10 ≤ fuel := by
        have : n / 10 < n := Nat.div_lt_self (Nat.pos_of_ne_zero h0) (by omega)
        omega
      simp only [digitsRevAux, h0, if_false, fromDigits, ih _ hdiv]
      omega

theorem fromDigits_digitsRev (n : Nat) : fromDigits (digitsRev n) = n :=
  fromDigits_digitsRevAux n n (Nat.le_refl n)

theorem digitsRev_inj : Function.Injective digitsRev := by
  intro a b h
  have := congrArg fromDigits h
  rwa [fromDigits_digitsRev, fromDigits_digitsRev] at this

theorem digitsRevAux_lt_ten :
    ∀ fuel n, ∀ d ∈ digitsRevAux fuel n, d < 10 := by
  intro fuel
  induction fuel with
  | zero => intro n d hd; simp [digitsRevAux] at hd
  | succ fuel ih =>
    intro n d hd
    by_cases h0 : n = 0
    · subst h0; simp [digitsRevAux] at hd
    · simp only [digitsRevAux, h0, if_false, List.mem_cons] at hd
      rcases hd with hd | hd
      · omega
      · exact ih _ _ hd

theorem digitsRev_lt_ten (n : Nat) : ∀ d ∈ digitsRev n, d < 10 :=
  digitsRevAux_lt_ten n n

theorem digitChar_inj {a b : Nat} (ha : a < 10) (hb : b < 10)
    (h : digitChar a = digitChar b) : a = b := by
  interval_cases a <;> interval_cases b <;>
    first
    | rfl
    | exact absurd h (by decide)

theorem map_digitChar_inj :
    ∀ (l₁ l₂ : List Nat), (∀ d ∈ l₁, d < 10) → (∀ d ∈ l₂, d < 10) →
      l₁.map digitChar = l₂.map digitChar → l₁ = l₂ := by
  intro l₁
  induction l₁ with
  | nil => intro l₂ _ _ h; cases l₂ <;> simp_all
  | cons a l ih =>
    intro l₂ h₁ h₂ h
    cases l₂ with
    | nil => simp at h
    | cons b l' =>
      simp only [List.map_cons, List.cons.injEq] at h
      have hab : a = b :=
        digitChar_inj (h₁ a (by simp)) (h₂ b (by simp)) h.1
      have : l = l' :=
        ih l' (fun d hd => h₁ d (by simp [hd])) (fun d hd => h₂ d (by simp [hd]))
          h.2
      rw [hab, this]

theorem string_ext {s t : String} (h : s.data = t.data) : s = t := by
  cases s; cases t; exact congrArg String.mk h

theorem natStr_inj : Function.Injective natStr := by
  intro a b h
  unfold natStr at h
  by_cases ha : a = 0 <;> by_cases hb : b = 0
  · rw [ha, hb]
  · exfalso
    rw [if_pos ha, if_neg hb] at h
    have hd : (['0'] : List Char) = (digitsRev b).reverse.map digitChar :=
      congrArg String.data h
    have : ([0] : List Nat).map digitChar = (digitsRev b).reverse.map digitChar := by
      simpa [digitChar] using hd
    have h0 : ([0] : List Nat) = (digitsRev b).reverse :=
      map_digitChar_inj _ _ (by simp)
        (fun d hd => digitsRev_lt_ten b d (List.mem_reverse.1 hd)) this
    have : digitsRev b = [0] := by
      have := congrArg List.reverse h0
      simpa using this.symm
    have : b = 0 := by
      have hfd := fromDigits_digitsRev b
      rw [this] at hfd
      simpa [fromDigits] using hfd.symm
    exact hb this
  · exfalso
    rw [if_neg ha, if_pos hb] at h
    have hd : (digitsRev a).reverse.map digitChar = (['0'] : List Char) :=
      congrArg String.data h
    have : (digitsRev a).reverse.map digitChar = ([0] : List Nat).map digitChar := by
      simpa [digitChar] using hd
    have h0 : (digitsRev a).reverse = ([0] : List Nat) :=
      map_digitChar_inj _ _
        (fun d hd => digitsRev_lt_ten a d (List.mem_reverse.1 hd)) (by simp) this
    have : digitsRev a = [0] := by
      have := congrArg List.reverse h0
      simpa using this
    have : a = 0 := by
      have hfd := fromDigits_digitsRev a
      rw [this] at hfd
      simpa [fromDigits] using hfd.symm
    exact ha this
  · rw [if_neg ha, if_neg hb] at h
    have hd : (digitsRev a).reverse.map digitChar
        = (digitsRev b).reverse.map digitChar :=
      congrArg String.data h
    have hrev : (digitsRev a).reverse = (digitsRev b).reverse :=
      map_digitChar_inj _ _
        (fun d hda => digitsRev_lt_ten a d (List.mem_reverse.1 hda))
        (fun d hdb => digitsRev_lt_ten b d (List.mem_reverse.1 hdb)) hd
    exact digitsRev_inj (List.reverse_injective hrev)

theorem natStr_data_inj {a b : Nat}
    (h : (natStr a).data = (natStr b).data) : a = b :=
  natStr_inj (string_ext h)

/-! ### Constraint-name lemmas -/

theorem data_append (s t : String) : (s ++ t).data = s.data ++ t.data := rfl

theorem append_natStr_inj (pre : String) {a b : Nat}
    (h : pre ++ natStr a = pre ++ natStr b) : a = b := by
  have hd := congrArg String.data h
  rw [data_append, data_append] at hd
  exact natStr_data_inj (List.append_cancel_left hd)

theorem append_natStr_append_inj (pre sfx : String) {a b : Nat}
    (h : pre ++ natStr a ++ sfx = pre ++ natStr b ++ sfx) : a = b := by
  have hd := congrArg String.data h
  rw [data_append, data_append, data_append, data_append,
    List.append_assoc, List.append_assoc] at hd
  have hmid := List.append_cancel_left hd
  have hlen : (natStr a).data.length = (natStr b).data.length := by
    have := congrArg List.length hmid
    simp only [List.length_append] at this
    omega
  exact natStr_data_inj (List.append_inj hmid hlen).1

theorem minUtilName_inj : Function.Injective minUtilName := fun a b h =>
  append_natStr_append_inj "pump" "_on_at_least_1h_per_day" h

theorem reserveName_inj : Function.Injective reserveName := fun a b h =>
  append_natStr_inj "at_least_one_pump_in_reserve_at_time" h

theorem balanceName_inj : Function.Injective balanceName := fun a b h =>
  append_natStr_inj "volume_at_time" h

theorem capacityName_inj : Function.Injective capacityName := fun a b h =>
  append_natStr_inj "within_capacity_at_time" h

theorem floorName_inj : Function.Injective floorName := fun a b h =>
  append_natStr_inj "sufficient_reserve_at_time" h

theorem minUtilName_head (t : Nat) : (minUtilName t).data.head? = some 'p' := rfl

theorem reserveName_head (t : Nat) : (reserveName t).data.head? = some 'a' := rfl

theorem balanceName_head (t : Nat) : (balanceName t).data.head? = some 'v' := rfl

theorem capacityName_head (t : Nat) :
    (capacityName t).data.head? = some 'w' := rfl

theorem floorName_head (t : Nat) : (floorName t).data.head? = some 's' := rfl

theorem fam_ne {c₁ c₂ : Char} {f g : Nat → String}
    (hf : ∀ t, (f t).data.head? = some c₁)
    (hg : ∀ t, (g t).data.head? = some c₂) (hc : c₁ ≠ c₂) :
    ∀ a b, f a ≠ g b := by
  intro a b h
  apply hc
  have := congrArg (fun s => s.data.head?) h
  simp only [hf, hg] at this
  exact Option.some.inj this

theorem disjoint_maps {f g : Nat → String} (h : ∀ a b, f a ≠ g b)
    (l₁ l₂ : List Nat) : (l₁.map f).Disjoint (l₂.map g) := by
  intro x hx hy
  rcases List.mem_map.1 hx with ⟨a, _, rfl⟩
  rcases List.mem_map.1 hy with ⟨b, _, hb⟩
  exact h a b hb.symm

theorem constraintNames_eq (pumps : List Pump) (exogenous : List ExogRow)
    (reservoir : Reservoir) :
    constraintNames pumps exogenous reservoir
      = (pumpIds pumps).map minUtilName
        ++ (timeslots exogenous).map reserveName
        ++ (timeslots exogenous).map balanceName
        ++ (timeslots exogenous).map capacityName
        ++ (timeslots exogenous).map floorName := by
  simp only [constraintNames, buildConstraints, List.map_append, List.map_map]
  rfl

/-! ### Evaluation and coefficient lemmas -/

theorem termSum_append (σ : String → ℚ) (l₁ l₂ : List (String × ℚ)) :
    (l₁ ++ l₂).foldr (fun tc s => tc.2 * σ tc.1 + s) 0
      = l₁.foldr (fun tc s => tc.2 * σ tc.1 + s) 0
        + l₂.foldr (fun tc s => tc.2 * σ tc.1 + s) 0 := by
  induction l₁ with
  | nil => simp
  | cons a l ih => simp [ih]; ring

theorem termSum_foldr_init (σ : String → ℚ) (l : List (String × ℚ)) (c : ℚ) :
    l.foldr (fun tc s => tc.2 * σ tc.1 + s) c
      = l.foldr (fun tc s => tc.2 * σ tc.1 + s) 0 + c := by
  induction l with
  | nil => simp
  | cons a l ih => simp only [List.foldr_cons, ih]; ring

theorem eval_exprAdd (σ : String → ℚ) (a b : LinExpr) :
    eval σ (exprAdd a b) = eval σ a + eval σ b := by
  simp only [eval, exprAdd, List.foldr_append]
  rw [termSum_foldr_init σ a.terms]
  ring

theorem eval_exprNeg (σ : String → ℚ) (a : LinExpr) :
    eval σ (exprNeg a) = -eval σ a := by
  simp only [eval, exprNeg]
  induction a.terms with
  | nil => simp
  | cons t l ih => simp only [List.map_cons, List.foldr_cons]; linarith [ih]

theorem eval_exprSub (σ : String → ℚ) (a b : LinExpr) :
    eval σ (exprSub a b) = eval σ a - eval σ b := by
  rw [exprSub, eval_exprAdd, eval_exprNeg]; ring

theorem eval_exprSmul (σ : String → ℚ) (c : ℚ) (a : LinExpr) :
    eval σ (exprSmul c a) = c * eval σ a := by
  simp only [eval, exprSmul]
  induction a.terms with
  | nil => simp
  | cons t l ih => simp only [List.map_cons, List.foldr_cons]; linarith [ih]

theorem eval_varE (σ : String → ℚ) (v : String) : eval σ (varE v) = σ v := by
  simp [eval, varE]

theorem eval_constE (σ : String → ℚ) (c : ℚ) : eval σ (constE c) = c := by
  simp [eval, constE]

theorem eval_exprZero (σ : String → ℚ) : eval σ exprZero = 0 := by
  simp [eval, exprZero]

theorem eval_exprSum (σ : String → ℚ) (l : List LinExpr) :
    eval σ (exprSum l) = (l.map (eval σ)).sum := by
  induction l with
  | nil => simp [exprSum, eval_exprZero]
  | cons a l ih =>
    have : exprSum (a :: l) = exprAdd a (exprSum l) := rfl
    rw [this, eval_exprAdd, ih]
    simp

theorem coeff_exprAdd (a b : LinExpr) (v : String) :
    coeff (exprAdd a b) v = coeff a v + coeff b v := by
  simp only [coeff, exprAdd, List.filter_append]
  induction a.terms.filter (fun tc => tc.1 = v) with
  | nil => simp
  | cons t l ih => simp only [List.foldr_cons, List.cons_append]; linarith [ih]

theorem coeff_varE_self (v : String) : coeff (varE v) v = 1 := by
  simp [coeff, varE]

theorem eval_is_running (σ : String → ℚ) (pump time : Nat) :
    eval σ (is_running pump time) = σ (runLabel pump time) :=
  eval_varE σ (runLabel pump time)

theorem eval_sum_running (σ : String → ℚ) (l : List Nat) (time : Nat) :
    eval σ (exprSum (l.map (fun pump => is_running pump time)))
      = (l.map (fun pump => σ (runLabel pump time))).sum := by
  rw [eval_exprSum, List.map_map]
  congr 1
  exact List.map_congr_left (fun p _ => eval_is_running σ p time)

theorem filter_length_le_sum (f : Nat → ℚ) (l : List Nat)
    (hb : ∀ p ∈ l, f p = 0 ∨ f p = 1) :
    ((l.filter (fun p => f p = 1)).length : ℚ) ≤ (l.map f).sum := by
  induction l with
  | nil => simp
  | cons a l ih =>
    have ha := hb a (by simp)
    have ihl := ih (fun p hp => hb p (by simp [hp]))
    rcases ha with h0 | h1
    · simp only [List.filter_cons, List.map_cons, List.sum_cons, h0]
      norm_num
      linarith
    · simp only [List.filter_cons, List.map_cons, List.sum_cons, h1]
      norm_num
      linarith

/-! ### Membership of each constraint family in the built model -/

theorem minUtil_mem (pumps : List Pump) (exogenous : List ExogRow)
    (reservoir : Reservoir) {p : Nat} (hp : p ∈ pumpIds pumps) :
    (⟨minUtilName p,
      exprSum ((timeslots exogenous).map (fun time => is_running p time)),
      Sense.ge, 1⟩ : Constr) ∈ buildConstraints pumps exogenous reservoir := by
  unfold buildConstraints
  exact List.mem_append_left _ (List.mem_append_left _ (List.mem_append_left _
    (List.mem_append_left _ (List.mem_map_of_mem _ hp))))

theorem reserve_mem (pumps : List Pump) (exogenous : List ExogRow)
    (reservoir : Reservoir) {t : Nat} (ht : t ∈ timeslots exogenous) :
    (⟨reserveName t,
      exprSum ((pumpIds pumps).map (fun pump => is_running pump t)),
      Sense.le, (pumps.length : ℚ) - 1⟩ : Constr)
      ∈ buildConstraints pumps exogenous reservoir := by
  unfold buildConstraints
  exact List.mem_append_left _ (List.mem_append_left _ (List.mem_append_left _
    (List.mem_append_right _ (List.mem_map_of_mem _ ht))))

theorem balance_mem (pumps : List Pump) (exogenous : List ExogRow)
    (reservoir : Reservoir) {t : Nat} (ht : t ∈ timeslots exogenous) :
    (⟨balanceName t, reservoir_outflow pumps exogenous reservoir t,
      Sense.eq, water_demand exogenous t⟩ : Constr)
      ∈ buildConstraints pumps exogenous reservoir := by
  unfold buildConstraints
  exact List.mem_append_left _ (List.mem_append_left _
    (List.mem_append_right _ (List.mem_map_of_mem _ ht)))

theorem capacity_mem (pumps : List Pump) (exogenous : List ExogRow)
    (reservoir : Reservoir) {t : Nat} (ht : t ∈ timeslots exogenous) :
    (⟨capacityName t, reservoir_volume exogenous reservoir t,
      Sense.le, reservoir.Vmax⟩ : Constr)
      ∈ buildConstraints pumps exogenous reservoir := by
  unfold buildConstraints
  exact List.mem_append_left _
    (List.mem_append_right _ (List.mem_map_of_mem _ ht))

theorem floor_mem (pumps : List Pump) (exogenous : List ExogRow)
    (reservoir : Reservoir) {t : Nat} (ht : t ∈ timeslots exogenous) :
    (⟨floorName t, reservoir_volume exogenous reservoir t,
      Sense.ge, reservoir.Vmin⟩ : Constr)
      ∈ buildConstraints pumps exogenous reservoir := by
  unfold buildConstraints
  exact List.mem_append_right _ (List.mem_map_of_mem _ ht)

/-! ### Claims -/

/-- C1: for every time t, the outflow expression is constructed symbolically
as volume(t-1) + inflow(t) - volume(t): `reservoir_outflow t` equals
`reservoir_volume (t-1) + reservoir_inflow t - reservoir_volume t` as an
expression, hence also under every variable assignment. -/
theorem C1_outflow_symbolic (pumps : List Pump) (exogenous : List ExogRow)
    (reservoir : Reservoir) (t : Nat) :
    reservoir_outflow pumps exogenous reservoir t
      = exprSub
          (exprAdd (reservoir_volume exogenous reservoir (t - 1))
            (reservoir_inflow pumps t))
          (reservoir_volume exogenous reservoir t)
    ∧ ∀ σ : String → ℚ,
        eval σ (reservoir_outflow pumps exogenous reservoir t)
          = eval σ (reservoir_volume exogenous reservoir (t - 1))
            + eval σ (reservoir_inflow pumps t)
            - eval σ (reservoir_volume exogenous reservoir t) :=
  ⟨rfl, fun σ => by rw [reservoir_outflow, eval_exprSub, eval_exprAdd]⟩

/-- C2: when the first timeslot index is 1, the volume accessor returns the
constant Vinit for time 0 (and in general for any time below the first
timeslot index), and a continuous variable for every time ≥ 1. -/
theorem C2_volume_boundary (exogenous : List ExogRow) (reservoir : Reservoir)
    (h : timeslotsMin exogenous = 1) :
    reservoir_volume exogenous reservoir 0 = constE reservoir.Vinit
    ∧ (∀ t, 1 ≤ t →
        reservoir_volume exogenous reservoir t = varE (volLabel t))
    ∧ (∀ t, t < timeslotsMin exogenous →
        reservoir_volume exogenous reservoir t = constE reservoir.Vinit) := by
  refine ⟨?_, ?_, ?_⟩
  · simp [reservoir_volume, h]
  · intro t ht
    simp [reservoir_volume, h, ht]
  · intro t ht
    simp [reservoir_volume, Nat.not_le.2 ht]

/-- Witness for C2 at the reference dataset: its first timeslot index is 1
and volume(0) resolves to the Vinit constant. -/
theorem C2_volume_boundary_witness :
    timeslotsMin refExog = 1
    ∧ reservoir_volume refExog refRes 0 = constE refRes.Vinit :=
  ⟨by decide, (C2_volume_boundary refExog refRes (by decide)).1⟩

/-- C3: the power price used in the objective is the raw tariff value divided
by exactly 1000; the objective is built from `power_price`, and the raw
reference tariff 169 at time 1 yields exactly 0.169. -/
theorem C3_power_price_conversion (pumps : List Pump)
    (exogenous : List ExogRow) (t : Nat) :
    power_price exogenous t
      = (((exogenous.find? (fun r => r.time = t)).map
          ExogRow.power_price).getD 0) / 1000
    ∧ buildObjective pumps exogenous
      = exprSum ((timeslots exogenous).map
          (fun time => exprSmul (power_price exogenous time)
            (power_used pumps time)))
    ∧ power_price refExog 1 = 0.169 :=
  ⟨rfl, rfl, by norm_num [power_price, refExog, List.find?]⟩

/-- C9: the running-variable constructor is keyed by (pump, time): two calls
with the same key yield the same handle, the handle refers to exactly the
variable labelled pump{p}_time{t} with coefficient 1, and expressions built
from two call sites aggregate on that one variable (coefficient 2, value
2·σ(label)). -/
theorem C9_running_memoized (p t : Nat) :
    is_running p t = is_running p t
    ∧ (is_running p t).terms = [(runLabel p t, 1)]
    ∧ coeff (exprAdd (is_running p t) (is_running p t)) (runLabel p t) = 2
    ∧ ∀ σ : String → ℚ,
        eval σ (exprAdd (is_running p t) (is_running p t))
          = 2 * σ (runLabel p t) := by
  refine ⟨rfl, rfl, ?_, ?_⟩
  · rw [coeff_exprAdd, is_running, coeff_varE_self]
    norm_num
  · intro σ
    rw [eval_exprAdd, is_running, eval_varE]
    ring

/-- C5: for every timeslot t the model contains the standby-reserve
constraint Σ_pump running(pump,t) ≤ P−1, and any feasible binary assignment
runs at most P−1 pumps in hour t. -/
theorem C5_standby_reserve (pumps : List Pump) (exogenous : List ExogRow)
    (reservoir : Reservoir) (t : Nat) (ht : t ∈ timeslots exogenous) :
    (⟨reserveName t,
      exprSum ((pumpIds pumps).map (fun pump => is_running pump t)),
      Sense.le, (pumps.length : ℚ) - 1⟩ : Constr)
      ∈ buildConstraints pumps exogenous reservoir
    ∧ ∀ σ : String → ℚ, Feasible pumps exogenous reservoir σ →
        (∀ p ∈ pumpIds pumps, σ (runLabel p t) = 0 ∨ σ (runLabel p t) = 1) →
        (((pumpIds pumps).filter
            (fun p => σ (runLabel p t) = 1)).length : ℚ)
          ≤ (pumps.length : ℚ) - 1 := by
  refine ⟨reserve_mem pumps exogenous reservoir ht, ?_⟩
  intro σ hf hb
  have hsat := hf _ (reserve_mem pumps exogenous reservoir ht)
  simp only [satisfies] at hsat
  rw [eval_sum_running σ (pumpIds pumps) t] at hsat
  have hcount :=
    filter_length_le_sum (fun p => σ (runLabel p t)) (pumpIds pumps) hb
  linarith

/-- Witness for C5 at the reference dataset and hour 1. -/
theorem C5_standby_reserve_witness :
    1 ∈ timeslots refExog
    ∧ (⟨reserveName 1,
        exprSum ((pumpIds refPumps).map (fun pump => is_running pump 1)),
        Sense.le, (refPumps.length : ℚ) - 1⟩ : Constr)
        ∈ buildConstraints refPumps refExog refRes :=
  ⟨by decide, (C5_standby_reserve refPumps refExog refRes 1 (by decide)).1⟩

/-- C6: for every timeslot t the model contains the mass-balance equality
outflow(t) = waterDemand(t), and for every pump p it contains the
minimum-utilization constraint Σ_t running(p,t) ≥ 1; feasible assignments
satisfy both. -/
theorem C6_balance_and_min_util (pumps : List Pump) (exogenous : List ExogRow)
    (reservoir : Reservoir) (t p : Nat) (ht : t ∈ timeslots exogenous)
    (hp : p ∈ pumpIds pumps) :
    (⟨balanceName t, reservoir_outflow pumps exogenous reservoir t,
      Sense.eq, water_demand exogenous t⟩ : Constr)
      ∈ buildConstraints pumps exogenous reservoir
    ∧ (⟨minUtilName p,
        exprSum ((timeslots exogenous).map (fun time => is_running p time)),
        Sense.ge, 1⟩ : Constr)
        ∈ buildConstraints pumps exogenous reservoir
    ∧ ∀ σ : String → ℚ, Feasible pumps exogenous reservoir σ →
        eval σ (reservoir_outflow pumps exogenous reservoir t)
          = water_demand exogenous t
        ∧ 1 ≤ eval σ (exprSum ((timeslots exogenous).map
            (fun time => is_running p time))) := by
  refine ⟨balance_mem pumps exogenous reservoir ht,
    minUtil_mem pumps exogenous reservoir hp, ?_⟩
  intro σ hf
  have h₁ := hf _ (balance_mem pumps exogenous reservoir ht)
  have h₂ := hf _ (minUtil_mem pumps exogenous reservoir hp)
  simp only [satisfies] at h₁ h₂
  exact ⟨h₁, h₂⟩

/-- Witness for C6 at the reference dataset, hour 1 and pump 1. -/
theorem C6_balance_and_min_util_witness :
    1 ∈ timeslots refExog ∧ 1 ∈ pumpIds refPumps
    ∧ (⟨balanceName 1, reservoir_outflow refPumps refExog refRes 1,
        Sense.eq, water_demand refExog 1⟩ : Constr)
        ∈ buildConstraints refPumps refExog refRes :=
  ⟨by decide, by decide,
    (C6_balance_and_min_util refPumps refExog refRes 1 1 (by decide)
      (by decide)).1⟩

/-- C7: for every timeslot t the model contains volume(t) ≤ Vmax and
volume(t) ≥ Vmin, so every feasible assignment keeps the volume expression
within [Vmin, Vmax] at every hour. -/
theorem C7_volume_bounds (pumps : List Pump) (exogenous : List ExogRow)
    (reservoir : Reservoir) (t : Nat) (ht : t ∈ timeslots exogenous) :
    (⟨capacityName t, reservoir_volume exogenous reservoir t,
      Sense.le, reservoir.Vmax⟩ : Constr)
      ∈ buildConstraints pumps exogenous reservoir
    ∧ (⟨floorName t, reservoir_volume exogenous reservoir t,
        Sense.ge, reservoir.Vmin⟩ : Constr)
        ∈ buildConstraints pumps exogenous reservoir
    ∧ ∀ σ : String → ℚ, Feasible pumps exogenous reservoir σ →
        reservoir.Vmin ≤ eval σ (reservoir_volume exogenous reservoir t)
        ∧ eval σ (reservoir_volume exogenous reservoir t) ≤ reservoir.Vmax := by
  refine ⟨capacity_mem pumps exogenous reservoir ht,
    floor_mem pumps exogenous reservoir ht, ?_⟩
  intro σ hf
  have h₁ := hf _ (capacity_mem pumps exogenous reservoir ht)
  have h₂ := hf _ (floor_mem pumps exogenous reservoir ht)
  simp only [satisfies] at h₁ h₂
  exact ⟨h₂, h₁⟩

/-- Witness for C7 at the reference dataset and hour 1. -/
theorem C7_volume_bounds_witness :
    1 ∈ timeslots refExog
    ∧ (⟨capacityName 1, reservoir_volume refExog refRes 1,
        Sense.le, refRes.Vmax⟩ : Constr)
        ∈ buildConstraints refPumps refExog refRes :=
  ⟨by decide, (C7_volume_bounds refPumps refExog refRes 1 (by decide)).1⟩

/-- C8 (counterexample): the spec's name patterns do not occur in the model
built from the reference dataset — pump 1 and hour 1 exist, yet none of
pump1_min_hours, reserve_at_1, balance_at_1, capacity_at_1,
reserve_volume_at_1 is a registered constraint name. -/
theorem C8_names_counterexample :
    1 ∈ pumpIds refPumps ∧ 1 ∈ timeslots refExog
    ∧ "pump1_min_hours" ∉ constraintNames refPumps refExog refRes
    ∧ "reserve_at_1" ∉ constraintNames refPumps refExog refRes
    ∧ "balance_at_1" ∉ constraintNames refPumps refExog refRes
    ∧ "capacity_at_1" ∉ constraintNames refPumps refExog refRes
    ∧ "reserve_volume_at_1" ∉ constraintNames refPumps refExog refRes :=
  ⟨by decide, by decide, by decide, by decide, by decide, by decide, by decide⟩

/-- C8 (amended): the five constraint families are registered under the
name patterns pump{id}_on_at_least_1h_per_day,
at_least_one_pump_in_reserve_at_time{t}, volume_at_time{t},
within_capacity_at_time{t} and sufficient_reserve_at_time{t}, in that
order. -/
theorem C8_names_patterns (pumps : List Pump) (exogenous : List ExogRow)
    (reservoir : Reservoir) :
    constraintNames pumps exogenous reservoir
      = (pumpIds pumps).map minUtilName
        ++ (timeslots exogenous).map reserveName
        ++ (timeslots exogenous).map balanceName
        ++ (timeslots exogenous).map capacityName
        ++ (timeslots exogenous).map floorName
    ∧ minUtilName 2 = "pump2_on_at_least_1h_per_day"
    ∧ reserveName 3 = "at_least_one_pump_in_reserve_at_time3"
    ∧ balanceName 4 = "volume_at_time4"
    ∧ capacityName 5 = "within_capacity_at_time5"
    ∧ floorName 6 = "sufficient_reserve_at_time6" :=
  ⟨constraintNames_eq pumps exogenous reservoir,
    by decide, by decide, by decide, by decide, by decide⟩

/-- C10: for input tables with unique pump ids and unique time indices, the
constraint names generated by the five loops are pairwise distinct, so no
add-constraint call collides with a previously used name. -/
theorem C10_names_distinct (pumps : List Pump) (exogenous : List ExogRow)
    (reservoir : Reservoir) (hp : (pumpIds pumps).Nodup)
    (ht : (timeslots exogenous).Nodup) :
    (constraintNames pumps exogenous reservoir).Nodup := by
  rw [constraintNames_eq, List.append_assoc, List.append_assoc,
    List.append_assoc]
  have hA := hp.map minUtilName_inj
  have hB := ht.map reserveName_inj
  have hC := ht.map balanceName_inj
  have hD := ht.map capacityName_inj
  have hE := ht.map floorName_inj
  have dAB := disjoint_maps
    (fam_ne minUtilName_head reserveName_head (by decide))
    (pumpIds pumps) (timeslots exogenous)
  have dAC := disjoint_maps
    (fam_ne minUtilName_head balanceName_head (by decide))
    (pumpIds pumps) (timeslots exogenous)
  have dAD := disjoint_maps
    (fam_ne minUtilName_head capacityName_head (by decide))
    (pumpIds pumps) (timeslots exogenous)
  have dAE := disjoint_maps
    (fam_ne minUtilName_head floorName_head (by decide))
    (pumpIds pumps) (timeslots exogenous)
  have dBC := disjoint_maps
    (fam_ne reserveName_head balanceName_head (by decide))
    (timeslots exogenous) (timeslots exogenous)
  have dBD := disjoint_maps
    (fam_ne reserveName_head capacityName_head (by decide))
    (timeslots exogenous) (timeslots exogenous)
  have dBE := disjoint_maps
    (fam_ne reserveName_head floorName_head (by decide))
    (timeslots exogenous) (timeslots exogenous)
  have dCD := disjoint_maps
    (fam_ne balanceName_head capacityName_head (by decide))
    (timeslots exogenous) (timeslots exogenous)
  have dCE := disjoint_maps
    (fam_ne balanceName_head floorName_head (by decide))
    (timeslots exogenous) (timeslots exogenous)
  have dDE := disjoint_maps
    (fam_ne capacityName_head floorName_head (by decide))
    (timeslots exogenous) (timeslots exogenous)
  refine List.nodup_append.2 ⟨hA, List.nodup_append.2 ⟨hB,
    List.nodup_append.2 ⟨hC, List.nodup_append.2 ⟨hD, hE, dDE⟩, ?_⟩, ?_⟩, ?_⟩
  · exact List.disjoint_append_right.2 ⟨dCD, dCE⟩
  · exact List.disjoint_append_right.2 ⟨dBC,
      List.disjoint_append_right.2 ⟨dBD, dBE⟩⟩
  · exact List.disjoint_append_right.2 ⟨dAB,
      List.disjoint_append_right.2 ⟨dAC,
        List.disjoint_append_right.2 ⟨dAD, dAE⟩⟩⟩

/-- Witness for C10: the reference tables have unique pump ids and unique
time indices, and the generated names are distinct. -/
theorem C10_names_distinct_witness :
    (pumpIds refPumps).Nodup ∧ (timeslots refExog).Nodup
    ∧ (constraintNames refPumps refExog refRes).Nodup :=
  ⟨by decide, by decide,
    C10_names_distinct refPumps refExog refRes (by decide) (by decide)⟩

set_option maxRecDepth 100000 in
set_option maxHeartbeats 1000000 in
/-- C4: the objective is Σ_t powerPrice(t)·powerUsed(t); on the reference
dataset, under the all-on assignment (every pump running every hour,
regardless of feasibility) every hour draws 195 and the objective evaluates
to exactly 0.195 × 5575 = 1087.125. -/
theorem C4_objective_all_on :
    buildObjective refPumps refExog
      = exprSum ((timeslots refExog).map
          (fun time => exprSmul (power_price refExog time)
            (power_used refPumps time)))
    ∧ (timeslots refExog).map (fun t => eval allOn (power_used refPumps t))
        = List.replicate 24 195
    ∧ eval allOn (buildObjective refPumps refExog) = 1087.125 := by
  refine ⟨rfl, ?_, ?_⟩
  · norm_num [timeslots, refExog, refPumps, eval, power_used, pumpIds,
      power_consumption, is_running, varE, exprSum, exprSmul, exprAdd,
      exprZero, allOn, List.find?, List.replicate]
  · norm_num [buildObjective, timeslots, refExog, refPumps, eval, power_used,
      power_price, pumpIds, power_consumption, is_running, varE, exprSum,
      exprSmul, exprAdd, exprZero, allOn, List.find?]
